import Mathlib

/-!
Verification development for the `chat` repository: a shallow embedding of
the data layer (`src/chat/db/models.py`), the message/content normalization
pipeline (`src/chat/llm_client.py`, `src/chat/ui/chat_page.py`), the file
upload handler (`src/chat/utils/file_handler.py`) and the registration flow
(`src/chat/auth/jwt_auth.py`), together with theorems settling the frozen
claims about the specification.

Modelling conventions:
* Python values that can appear in a message's content are embedded as
  `PyVal` (strings, ints, bools, bytes objects, lists, dicts with string
  keys; dicts keep insertion order, as Python dicts do).
* The SQLite database is a record of three tables (lists of rows in rowid
  / insertion order) plus a logical clock.  `datetime.now()` is modelled by
  the clock: every operation that reads the wall clock stores the current
  clock value and increments it, so successive timestamps are strictly
  increasing (the resolution of `datetime.now()` is assumed fine enough to
  separate successive database operations).
* `json.dumps`/`json.loads` round-trip on JSON-serialisable values, so a
  stored message keeps the (cleaned) `PyVal` itself; `json.dumps` raises
  `TypeError` on a `bytes` object, which is modelled by the serialisability
  check `jsonOk`.  An operation on which SQLite or `json` raises leaves the
  database unchanged (the transaction is rolled back) and is reported as
  `none` where the model needs to observe the failure.
* External library calls (`hashlib.pbkdf2_hmac`, `os.urandom`, the JWT
  encoder, `python-docx` extraction, text codecs) are taken as parameters
  of the embedded functions, so every theorem quantifies over them.
-/

/-- Embedded Python values (the payloads that flow through message content). -/
inductive PyVal where
  | str : String → PyVal
  | int : Int → PyVal
  | bool : Bool → PyVal
  | bytes : List Nat → PyVal
  | list : List PyVal → PyVal
  | dict : List (String × PyVal) → PyVal

mutual

/-- `True` when `json.dumps` accepts the value (no `bytes` anywhere inside). -/
def jsonOk : PyVal → Bool
  | .str _ => true
  | .int _ => true
  | .bool _ => true
  | .bytes _ => false
  | .list vs => jsonOkList vs
  | .dict kvs => jsonOkPairs kvs

def jsonOkList : List PyVal → Bool
  | [] => true
  | v :: vs => jsonOk v && jsonOkList vs

def jsonOkPairs : List (String × PyVal) → Bool
  | [] => true
  | kv :: kvs => jsonOk kv.2 && jsonOkPairs kvs

end

/-- `User` row, `src/chat/db/models.py` lines 18-27. -/
structure User where
  id : String
  username : String
  email : String
  password_hash : String
  created_at : Nat
  total_input_tokens : Int
  total_output_tokens : Int
deriving DecidableEq

/-- `Conversation` row, `src/chat/db/models.py` lines 30-40. -/
structure Conversation where
  id : String
  user_id : String
  title : String
  created_at : Nat
  updated_at : Nat
  is_saved : Bool
  input_tokens : Int
  output_tokens : Int
deriving DecidableEq

/-- `Message` row, `src/chat/db/models.py` lines 43-52; `content` holds the
JSON value whose serialisation the SQLite column stores. -/
structure Message where
  id : String
  conversation_id : String
  role : String
  content : PyVal
  created_at : Nat
  input_tokens : Int
  output_tokens : Int

/-- The SQLite database: the three tables in rowid (insertion) order plus
the logical clock standing for `datetime.now()`. -/
structure DB where
  users : List User
  conversations : List Conversation
  messages : List Message
  clock : Nat

/-- A message as returned by `get_messages_for_api`. -/
structure ApiMessage where
  role : String
  content : PyVal

/-! ### Password hashing (`src/chat/db/models.py` lines 133-149)

`hashlib.pbkdf2_hmac('sha256', pwd, salt, 100000)` and `os.urandom(32)` are
external; the embedding takes the derived-key function and the salt as
parameters.  Hex strings are built and parsed at the `List Char` level. -/

/-- Lowercase hex digit of a value below 16 (`bytes.hex` uses lowercase). -/
def hexDigit (n : Nat) : Char :=
  if n < 10 then Char.ofNat (48 + n) else Char.ofNat (87 + n)

/-- `bytes.hex()`: two lowercase hex digits per byte. -/
def hexChars : List Nat → List Char
  | [] => []
  | b :: bs => hexDigit (b / 16) :: hexDigit (b % 16) :: hexChars bs

/-- Numeric value of a hex digit (both cases), junk value 16 otherwise. -/
def hexVal (c : Char) : Nat :=
  if 48 ≤ c.toNat ∧ c.toNat ≤ 57 then c.toNat - 48
  else if 97 ≤ c.toNat ∧ c.toNat ≤ 102 then c.toNat - 87
  else if 65 ≤ c.toNat ∧ c.toNat ≤ 70 then c.toNat - 55
  else 16

def isHexChar (c : Char) : Bool :=
  (48 ≤ c.toNat && c.toNat ≤ 57) || (97 ≤ c.toNat && c.toNat ≤ 102) ||
    (65 ≤ c.toNat && c.toNat ≤ 70)

/-- `bytes.fromhex`: pairs of hex digits; `none` models the `ValueError`
raised on a malformed string. -/
def fromhex : List Char → Option (List Nat)
  | [] => some []
  | [_] => none
  | c1 :: c2 :: cs =>
    if isHexChar c1 && isHexChar c2 then
      (fromhex cs).map (fun bs => (hexVal c1 * 16 + hexVal c2) :: bs)
    else none

/-- Python `str.split(sep)` for a one-character separator. -/
def splitChar (sep : Char) : List Char → List (List Char)
  | [] => [[]]
  | c :: cs =>
    if c = sep then [] :: splitChar sep cs
    else
      match splitChar sep cs with
      | [] => [[c]]
      | g :: gs => (c :: g) :: gs

/-- Model of Python `str.lower` (restricted to ASCII, which usernames and
email addresses use). -/
def py_lower (s : String) : String :=
  String.mk (s.data.map (fun c =>
    if 65 ≤ c.toNat ∧ c.toNat ≤ 90 then Char.ofNat (c.toNat + 32) else c))

/-- Model of Python `str.startswith`. -/
def py_startswith (s pre : String) : Bool :=
  pre.data.isPrefixOf s.data

/-- Model of Python `str.split(sep)` for a one-character separator,
returning strings. -/
def py_split_on (sep : Char) (s : String) : List String :=
  (splitChar sep s.data).map String.mk

/-- Model of Python `str.replace(a, b)` for one-character arguments. -/
def py_replace_char (a b : Char) (s : String) : String :=
  String.mk (s.data.map (fun c => if c = a then b else c))

/-- Model of Python `in` on strings, for a one-character needle. -/
def py_contains (s : String) (c : Char) : Bool :=
  s.data.contains c

/-- `hash_password` (`models.py` 133-137): `salt.hex() + ':' + key.hex()`
where `key = pbkdf2(password, salt, 100000)`.  `pbkdf2` stands for
`hashlib.pbkdf2_hmac('sha256', ...)` and `salt` for `os.urandom(32)`. -/
def hash_password (pbkdf2 : String → List Nat → Nat → List Nat)
    (salt : List Nat) (password : String) : String :=
  String.mk (hexChars salt ++ ':' :: hexChars (pbkdf2 password salt 100000))

/-- `verify_password` (`models.py` 140-149).  The `try`/`except` around the
split and the two `bytes.fromhex` calls is modelled by returning `false`
whenever parsing fails. -/
def verify_password (pbkdf2 : String → List Nat → Nat → List Nat)
    (password : String) (password_hash : String) : Bool :=
  match splitChar ':' password_hash.data with
  | [salt_hex, key_hex] =>
    match fromhex salt_hex, fromhex key_hex with
    | some salt, some stored_key => pbkdf2 password salt 100000 == stored_key
    | _, _ => false
  | _ => false

/-- A stored hash is well formed when it is `<hex salt>:<hex key>`:
exactly one `':'` and two parseable hex strings around it. -/
def WellFormedHash (h : String) : Prop :=
  ∃ s k, splitChar ':' h.data = [s, k] ∧ (fromhex s).isSome ∧ (fromhex k).isSome

/-! ### Data-layer operations (`src/chat/db/models.py`)

Each operation that calls `datetime.now()` stamps `db.clock` and increments
it.  An `INSERT` that would violate a `PRIMARY KEY`/`UNIQUE` constraint
raises `sqlite3.IntegrityError`; the transaction is rolled back, so the
model leaves the database unchanged (and reports `none` where the Python
function catches the error and returns `None`). -/

/-- Core of `create_user` (`models.py` 156-183): insert with lowercased
username/email; `None` on an integrity error (duplicate id, username or
email).  The password hash is passed in already computed. -/
def create_user_row (db : DB) (user_id username email password_hash : String) :
    Option User × DB :=
  if db.users.any
      (fun u => u.id == user_id || u.username == py_lower username ||
        u.email == py_lower email) then
    (none, db)
  else
    let u : User :=
      { id := user_id, username := py_lower username, email := py_lower email,
        password_hash := password_hash, created_at := db.clock,
        total_input_tokens := 0, total_output_tokens := 0 }
    (some u, { db with users := db.users ++ [u], clock := db.clock + 1 })

/-- `create_user` (`models.py` 156-183), with the external key-derivation
function and the `os.urandom` salt as parameters. -/
def create_user (pbkdf2 : String → List Nat → Nat → List Nat) (salt : List Nat)
    (db : DB) (user_id username email password : String) : Option User × DB :=
  create_user_row db user_id username email (hash_password pbkdf2 salt password)

/-- `update_user_tokens` (`models.py` 232-244):
`SET total_input_tokens = total_input_tokens + ?, ... WHERE id = ?`. -/
def update_user_tokens (db : DB) (user_id : String)
    (input_tokens output_tokens : Int) : DB :=
  { db with users := db.users.map (fun u =>
      if u.id == user_id then
        { u with total_input_tokens := u.total_input_tokens + input_tokens,
                 total_output_tokens := u.total_output_tokens + output_tokens }
      else u) }

/-- `create_conversation` (`models.py` 251-275).  A duplicate id would make
the uncaught `INSERT` raise, rolling the transaction back. -/
def create_conversation (db : DB) (conv_id user_id title : String) : DB :=
  if db.conversations.any (fun c => c.id == conv_id) then db
  else
    { db with
      conversations := db.conversations ++
        [{ id := conv_id, user_id := user_id, title := title,
           created_at := db.clock, updated_at := db.clock,
           is_saved := false, input_tokens := 0, output_tokens := 0 }],
      clock := db.clock + 1 }

/-- `update_conversation` (`models.py` 336-369): optional `title = ?` and
`is_saved = ?` assignments, optional `input_tokens = input_tokens + ?` /
`output_tokens = output_tokens + ?` increments, and an unconditional
`updated_at = datetime.now()`. -/
def update_conversation (db : DB) (conv_id : String) (title : Option String)
    (is_saved : Option Bool) (input_tokens output_tokens : Option Int) : DB :=
  { db with
    conversations := db.conversations.map (fun c =>
      if c.id == conv_id then
        { c with
          title := title.getD c.title,
          is_saved := is_saved.getD c.is_saved,
          input_tokens := c.input_tokens + input_tokens.getD 0,
          output_tokens := c.output_tokens + output_tokens.getD 0,
          updated_at := db.clock }
      else c),
    clock := db.clock + 1 }

/-- `delete_conversation` (`models.py` 372-377):
`DELETE FROM messages WHERE conversation_id = ?` then
`DELETE FROM conversations WHERE id = ?`. -/
def delete_conversation (db : DB) (conv_id : String) : DB :=
  { db with
    messages := db.messages.filter (fun m => m.conversation_id != conv_id),
    conversations := db.conversations.filter (fun c => c.id != conv_id) }

/-- The block clean-up inside `add_message` (`models.py` 400-409): dict
blocks lose their `"type"` key, other blocks pass through. -/
def clean_block : PyVal → PyVal
  | .dict kvs => .dict (kvs.filter (fun kv => kv.1 != "type"))
  | v => v

/-- Content serialisation in `add_message` (`models.py` 395-412): a string
becomes `[{"text": s}]`, a list is cleaned block by block, anything else is
dumped as is. -/
def serialize_content : PyVal → PyVal
  | .str s => .list [.dict [("text", .str s)]]
  | .list blocks => .list (blocks.map clean_block)
  | v => v

/-- `add_message` (`models.py` 384-432).  `json.dumps` raises `TypeError`
on non-serialisable content (`bytes` inside a block) and a duplicate
message id makes the `INSERT` raise; both leave the database unchanged and
are reported as `none`. -/
def add_message (db : DB) (msg_id conversation_id role : String)
    (content : PyVal) (input_tokens output_tokens : Int) : Option Message × DB :=
  let content_json := serialize_content content
  if jsonOk content_json then
    if db.messages.any (fun m => m.id == msg_id) then (none, db)
    else
      let m : Message :=
        { id := msg_id, conversation_id := conversation_id, role := role,
          content := content_json, created_at := db.clock,
          input_tokens := input_tokens, output_tokens := output_tokens }
      (some m, { db with messages := db.messages ++ [m], clock := db.clock + 1 })
  else (none, db)

/-- `get_conversation_messages` (`models.py` 435-459):
`SELECT * FROM messages WHERE conversation_id = ? ORDER BY created_at ASC`.
The table scan yields rowid (insertion) order; `ORDER BY` sorts it by
`created_at`. -/
def get_conversation_messages (db : DB) (conversation_id : String) : List Message :=
  List.insertionSort (fun a b => a.created_at ≤ b.created_at)
    (db.messages.filter (fun m => m.conversation_id == conversation_id))

/-- `get_messages_for_api` (`models.py` 462-474): `json.loads` each stored
content and pair it with the role. -/
def get_messages_for_api (db : DB) (conversation_id : String) : List ApiMessage :=
  (get_conversation_messages db conversation_id).map
    (fun m => { role := m.role, content := m.content })

/-! ### The data-layer operations as a transition system -/

/-- One data-layer write operation (the public mutating functions of
`src/chat/db/models.py`).  `createUser` carries the already computed
password hash. -/
inductive Op where
  | createUser (uid username email password_hash : String)
  | updateUserTokens (uid : String) (input_tokens output_tokens : Int)
  | createConversation (cid uid title : String)
  | updateConversation (cid : String) (title : Option String)
      (is_saved : Option Bool) (input_tokens output_tokens : Option Int)
  | deleteConversation (cid : String)
  | addMessage (mid cid role : String) (content : PyVal)
      (input_tokens output_tokens : Int)

def applyOp (db : DB) : Op → DB
  | .createUser uid un em ph => (create_user_row db uid un em ph).2
  | .updateUserTokens uid it ot => update_user_tokens db uid it ot
  | .createConversation cid uid t => create_conversation db cid uid t
  | .updateConversation cid t s it ot => update_conversation db cid t s it ot
  | .deleteConversation cid => delete_conversation db cid
  | .addMessage mid cid r c it ot => (add_message db mid cid r c it ot).2

def applyOps (db : DB) (ops : List Op) : DB := ops.foldl applyOp db

/-- The operation's token arguments are non-negative (trivially true for
operations without token arguments). -/
def NonNegOp : Op → Prop
  | .updateUserTokens _ it ot => 0 ≤ it ∧ 0 ≤ ot
  | .updateConversation _ _ _ it ot =>
      (∀ x, it = some x → 0 ≤ x) ∧ (∀ x, ot = some x → 0 ≤ x)
  | .addMessage _ _ _ _ it ot => 0 ≤ it ∧ 0 ≤ ot
  | _ => True

/-- The operation is `delete_conversation`. -/
def IsDeleteConv : Op → Prop
  | .deleteConversation _ => True
  | _ => False

/-- The operation is `create_conversation` with the given id. -/
def CreatesConv (cid : String) : Op → Prop
  | .createConversation c _ _ => c = cid
  | _ => False

/-- Well-formedness of a database state: message timestamps strictly
increase in rowid order and all lie below the clock.  This holds of the
empty database and is preserved by every operation (`WF_applyOp`). -/
def WF (db : DB) : Prop :=
  db.messages.Pairwise (fun a b => a.created_at < b.created_at) ∧
    ∀ m ∈ db.messages, m.created_at < db.clock

/-- Token counters of the conversation with a given id, if present. -/
def convTokens (db : DB) (cid : String) : Option (Int × Int) :=
  (db.conversations.find? (fun c => c.id == cid)).map
    (fun c => (c.input_tokens, c.output_tokens))

/-- Token counters of the user with a given id, if present. -/
def userTokens (db : DB) (uid : String) : Option (Int × Int) :=
  (db.users.find? (fun u => u.id == uid)).map
    (fun u => (u.total_input_tokens, u.total_output_tokens))

/-! ### File-attachment pipeline
(`src/chat/llm_client.py` 215-279, `src/chat/ui/chat_page.py` 59-119) -/

/-- A processed-file dict with the fields `'name'`, `'type'`, `'data'`
(base64 text) and optional `'extracted_text'`. -/
structure FileDict where
  name : String
  ftype : String
  data : String
  extracted_text : Option String

/-- Standard base64 alphabet value of a character, junk value 64 otherwise. -/
def b64Val (c : Char) : Nat :=
  if 65 ≤ c.toNat ∧ c.toNat ≤ 90 then c.toNat - 65
  else if 97 ≤ c.toNat ∧ c.toNat ≤ 122 then c.toNat - 71
  else if 48 ≤ c.toNat ∧ c.toNat ≤ 57 then c.toNat + 4
  else if c = '+' then 62
  else if c = '/' then 63
  else 64

def isB64Char (c : Char) : Bool := b64Val c != 64

/-- Decode complete base64 quadruples, honouring `=` padding in the last
quadruple. -/
def b64Groups : List Char → Option (List Nat)
  | [] => some []
  | a :: b :: c :: d :: rest =>
    if isB64Char a && isB64Char b then
      let v1 := b64Val a * 4 + b64Val b / 16
      if c = '=' then
        if d = '=' && rest.isEmpty then some [v1] else none
      else if isB64Char c then
        let v2 := b64Val b % 16 * 16 + b64Val c / 4
        if d = '=' then
          if rest.isEmpty then some [v1, v2] else none
        else if isB64Char d then
          (b64Groups rest).map (fun bs => v1 :: v2 :: (b64Val c % 4 * 64 + b64Val d) :: bs)
        else none
      else none
    else none
  | _ => none

/-- Model of Python's `base64.b64decode` (external standard library):
alphabet characters are decoded in quadruples, `=` pads the final
quadruple, and a malformed input raises (`none`). -/
def b64decode (s : String) : Option (List Nat) :=
  b64Groups (s.data.filter (fun c => isB64Char c || c = '='))

/-- Model of Python's `base64.b64encode(..).decode("utf-8")` (external
standard library): encode byte triples, padding the final group. -/
def b64Digit (n : Nat) : Char :=
  if n < 26 then Char.ofNat (65 + n)
  else if n < 52 then Char.ofNat (71 + n)
  else if n < 62 then Char.ofNat (n - 4)
  else if n = 62 then '+' else '/'

def b64encodeChars : List Nat → List Char
  | [] => []
  | [b1] =>
    [b64Digit (b1 / 4 % 64), b64Digit (b1 % 4 * 16), '=', '=']
  | [b1, b2] =>
    [b64Digit (b1 / 4 % 64), b64Digit (b1 % 4 * 16 + b2 / 16 % 16),
      b64Digit (b2 % 16 * 4), '=']
  | b1 :: b2 :: b3 :: bs =>
    b64Digit (b1 / 4 % 64) :: b64Digit (b1 % 4 * 16 + b2 / 16 % 16) ::
      b64Digit (b2 % 16 * 4 + b3 / 64 % 4) :: b64Digit (b3 % 64) ::
        b64encodeChars bs

def b64encode (bs : List Nat) : String := String.mk (b64encodeChars bs)

/-- The five text-like MIME types listed in `format_message_with_files`
(`llm_client.py` 259-265). -/
def textMimeTypes : List String :=
  ["text/plain", "text/markdown", "text/csv", "application/msword",
    "application/vnd.openxmlformats-officedocument.wordprocessingml.document"]

/-- Blocks contributed by one file in `format_message_with_files`
(`llm_client.py` 229-270).  Note: the base64 *string* `file["data"]` is
passed through as the `"bytes"` value, the image format is the raw second
path component of the MIME type, and a text-like file contributes a block
even when `extracted_text` is missing or empty. -/
def format_file_blocks (file : FileDict) : List PyVal :=
  if py_startswith file.ftype "image/" then
    [.dict [("image", .dict
      [("format", .str ((py_split_on '/' file.ftype).getD 1 "")),
       ("source", .dict [("bytes", .str file.data)])])]]
  else if file.ftype == "application/pdf" then
    [.dict [("document", .dict
      [("format", .str "pdf"), ("name", .str file.name),
       ("source", .dict [("bytes", .str file.data)])])]]
  else if textMimeTypes.contains file.ftype then
    [.dict [("text", .str
      ("[File: " ++ file.name ++ "]\n" ++ file.extracted_text.getD ""))]]
  else []

/-- `format_message_with_files` (`llm_client.py` 215-279). -/
def format_message_with_files (text : String) (files : List FileDict) : ApiMessage :=
  { role := "user",
    content := .list
      ((files.map format_file_blocks).flatten ++
        (if text != "" then [.dict [("text", .str text)]] else [])) }

/-- The `format_map` of `build_api_message` (`chat_page.py` 78-84). -/
def image_format_map : List (String × String) :=
  [("image/png", "png"), ("image/jpeg", "jpeg"), ("image/jpg", "jpeg"),
   ("image/gif", "gif"), ("image/webp", "webp")]

/-- Blocks contributed by one file in `build_api_message`
(`chat_page.py` 64-110).  The base64 data is decoded first (the file is
skipped if decoding raises), unknown image subtypes fall back to `"png"`,
the PDF name is sanitised, and a text-like block is emitted only when the
extracted text is non-empty. -/
def build_file_blocks (file : FileDict) : List PyVal :=
  match b64decode file.data with
  | none => []
  | some file_bytes =>
    if py_startswith file.ftype "image/" then
      [.dict [("image", .dict
        [("format", .str ((image_format_map.lookup file.ftype).getD "png")),
         ("source", .dict [("bytes", .bytes file_bytes)])])]]
    else if file.ftype == "application/pdf" then
      [.dict [("document", .dict
        [("format", .str "pdf"),
         ("name", .str ((py_replace_char ' ' '_' file.name).take 100)),
         ("source", .dict [("bytes", .bytes file_bytes)])])]]
    else
      let extracted := file.extracted_text.getD ""
      if extracted != "" then
        [.dict [("text", .str ("[File: " ++ file.name ++ "]\n" ++ extracted))]]
      else []

/-- `build_api_message` (`chat_page.py` 59-119). -/
def build_api_message (text : String) (files : List FileDict) : ApiMessage :=
  { role := "user",
    content := .list
      ((files.map build_file_blocks).flatten ++
        (if text != "" then [.dict [("text", .str text)]] else [])) }

/-! ### Streaming and the send flow
(`src/chat/llm_client.py` 89-133, `src/chat/ui/chat_page.py` 261-355) -/

/-- One event of the Bedrock `converse_stream` response.  A
`contentBlockDelta` may lack a `"text"` key; a `metadata` event carries an
optional `"usage"` dict with optional `inputTokens` / `outputTokens`. -/
inductive BedrockEvent where
  | contentBlockDelta (text : Option String)
  | metadata (usage : Option (Option Int × Option Int))
  | other

/-- `StreamChunk` (`llm_client.py` 16-22). -/
structure StreamChunk where
  text : String
  is_final : Bool := false
  input_tokens : Int := 0
  output_tokens : Int := 0

/-- `usage.get("inputTokens", 0)` / `usage.get("outputTokens", 0)` with
`usage = event["metadata"].get("usage", {})`. -/
def usageVals : Option (Option Int × Option Int) → Int × Int
  | none => (0, 0)
  | some (i, o) => (i.getD 0, o.getD 0)

/-- Loop body of `AWSBedrockClient.stream_message` (`llm_client.py`
112-133): text deltas are yielded as chunks, each metadata event overwrites
the token counters, and a final chunk carries the last counters. -/
def stream_events (input_tokens output_tokens : Int) :
    List BedrockEvent → List StreamChunk
  | [] => [{ text := "", is_final := true, input_tokens := input_tokens,
             output_tokens := output_tokens }]
  | .contentBlockDelta (some t) :: rest =>
    { text := t } :: stream_events input_tokens output_tokens rest
  | .contentBlockDelta none :: rest => stream_events input_tokens output_tokens rest
  | .metadata u :: rest => stream_events (usageVals u).1 (usageVals u).2 rest
  | .other :: rest => stream_events input_tokens output_tokens rest

/-- `AWSBedrockClient.stream_message` (`llm_client.py` 89-133), as a
function of the event stream returned by `converse_stream`. -/
def stream_message (events : List BedrockEvent) : List StreamChunk :=
  stream_events 0 0 events

/-- Token counts of the last metadata event of the stream (missing keys
count as 0), or `(0, 0)` when there is no metadata event. -/
def last_usage_from (acc : Int × Int) : List BedrockEvent → Int × Int
  | [] => acc
  | .metadata u :: rest => last_usage_from (usageVals u) rest
  | .contentBlockDelta _ :: rest => last_usage_from acc rest
  | .other :: rest => last_usage_from acc rest

def last_usage (events : List BedrockEvent) : Int × Int :=
  last_usage_from (0, 0) events

/-- The chunk loop of `show_chat_page` (`chat_page.py` 300-311): final
chunks set the token counters, other chunks extend the response text. -/
def fold_chunks (chunks : List StreamChunk) : String × Int × Int :=
  chunks.foldl
    (fun acc chunk =>
      if chunk.is_final then (acc.1, chunk.input_tokens, chunk.output_tokens)
      else (acc.1 ++ chunk.text, acc.2.1, acc.2.2))
    ("", 0, 0)

/-- The persistence part of a chat send (`chat_page.py` 261-355), for a
send whose remote stream completes with the given events: store the user
message, fold the stream, store the assistant message with the final token
counts, add the counts to the conversation and to the user, and optionally
retitle the conversation (`auto_title`; that last update touches no token
counter).  `none` models an uncaught exception from `add_message`
(non-serialisable content or a duplicate id), which aborts the send. -/
def send_chat_message (events : List BedrockEvent) (db : DB)
    (conv_id user_id : String) (prompt : String) (files : List FileDict)
    (user_msg_id asst_msg_id : String) (auto_title : Option String) :
    Option DB :=
  let api_message := build_api_message prompt files
  match add_message db user_msg_id conv_id "user" api_message.content 0 0 with
  | (none, _) => none
  | (some _, db1) =>
    let folded := fold_chunks (stream_message events)
    let full_response := folded.1
    let input_tokens := folded.2.1
    let output_tokens := folded.2.2
    match add_message db1 asst_msg_id conv_id "assistant"
        (.list [.dict [("text", .str full_response)]])
        input_tokens output_tokens with
    | (none, _) => none
    | (some _, db2) =>
      let db3 := update_conversation db2 conv_id none none
        (some input_tokens) (some output_tokens)
      let db4 := update_user_tokens db3 user_id input_tokens output_tokens
      match auto_title with
      | some t => some (update_conversation db4 conv_id (some t) none none none)
      | none => some db4

/-! ### File upload processing
(`src/chat/utils/file_handler.py`, `src/chat/config.py` 74-90) -/

/-- `ALLOWED_EXTENSIONS` (`config.py` 76-90), in source order. -/
def ALLOWED_EXTENSIONS : List (String × String) :=
  [(".pdf", "application/pdf"),
   (".doc", "application/msword"),
   (".docx", "application/vnd.openxmlformats-officedocument.wordprocessingml.document"),
   (".txt", "text/plain"),
   (".md", "text/markdown"),
   (".csv", "text/csv"),
   (".png", "image/png"),
   (".jpg", "image/jpeg"),
   (".jpeg", "image/jpeg"),
   (".gif", "image/gif"),
   (".webp", "image/webp")]

def MAX_FILE_SIZE_MB : Nat := 25

/-- Model of `pathlib.Path(filename).suffix` (external standard library):
the last dot-suffix of the final path component; empty when the name has
no dot, starts with its only dot, or ends with the dot. -/
def path_suffix (filename : String) : String :=
  let name := ((py_split_on '/' filename).getLastD "").data
  match name.reverse.findIdx? (fun c => c == '.') with
  | none => ""
  | some j =>
    let i := name.length - 1 - j
    if 0 < i ∧ i < name.length - 1 then String.mk (name.drop i) else ""

/-- `validate_file` (`file_handler.py` 18-35). -/
def validate_file (filename : String) (file_size : Nat) : Bool × String :=
  let ext := py_lower (path_suffix filename)
  if (ALLOWED_EXTENSIONS.lookup ext).isNone then
    (false, "File type '" ++ ext ++ "' is not supported. Allowed: " ++
      String.intercalate ", " (ALLOWED_EXTENSIONS.map (fun kv => kv.1)))
  else if file_size > MAX_FILE_SIZE_MB * 1024 * 1024 then
    (false, "File size exceeds 25MB limit")
  else (true, "")

/-- `get_mime_type` (`file_handler.py` 38-41). -/
def get_mime_type (filename : String) : String :=
  (ALLOWED_EXTENSIONS.lookup (py_lower (path_suffix filename))).getD
    "application/octet-stream"

/-- Model of `bytes.decode("latin-1")` (external standard library): each
byte maps to the character of its code point; never fails. -/
def decodeLatin1 (bs : List Nat) : String :=
  String.mk (bs.map (fun b => Char.ofNat (b % 256)))

/-- `process_file` (`file_handler.py` 44-79).  `decode_utf8` stands for
`bytes.decode("utf-8")` (`none` = `UnicodeDecodeError`) and `extract_docx`
for `extract_docx_text` built on the external `python-docx` library; an
`Except.error` models the raised `FileProcessingError`. -/
def process_file (decode_utf8 : List Nat → Option String)
    (extract_docx : List Nat → String)
    (filename : String) (file_data : List Nat) : Except String FileDict :=
  let v := validate_file filename file_data.length
  if !v.1 then .error v.2
  else
    let mime_type := get_mime_type filename
    let ext := py_lower (path_suffix filename)
    let extracted :=
      if ext ∈ [".txt", ".md", ".csv"] then
        some ((decode_utf8 file_data).getD (decodeLatin1 file_data))
      else if ext ∈ [".doc", ".docx"] then some (extract_docx file_data)
      else none
    .ok { name := filename, ftype := mime_type,
          data := b64encode file_data, extracted_text := extracted }

/-! ### Registration (`src/chat/auth/jwt_auth.py` 78-100) -/

/-- `AuthResult` (`jwt_auth.py` 14-20). -/
structure AuthResult where
  success : Bool
  user : Option User := none
  token : Option String := none
  error : Option String := none

/-- `JWTAuthProvider.register` (`jwt_auth.py` 78-100).  `mk_token` stands
for `_create_token` (the external JWT encoder); `pbkdf2` and `salt` are
the external inputs of the password hash computed by `create_user`. -/
def register (pbkdf2 : String → List Nat → Nat → List Nat) (salt : List Nat)
    (mk_token : User → String) (db : DB)
    (user_id username email password : String) : AuthResult × DB :=
  if username == "" || username.length < 3 then
    ({ success := false, error := some "Username must be at least 3 characters" }, db)
  else if email == "" || !(py_contains email '@') then
    ({ success := false, error := some "Please enter a valid email address" }, db)
  else if password == "" || password.length < 8 then
    ({ success := false, error := some "Password must be at least 8 characters" }, db)
  else
    match create_user pbkdf2 salt db user_id username email password with
    | (some u, db') =>
      ({ success := true, user := some u, token := some (mk_token u) }, db')
    | (none, db') =>
      ({ success := false, error := some "Username or email already exists" }, db')

/-! ### Shared lemmas -/

theorem find?_map_pred {α : Type} (l : List α) (f : α → α) (p : α → Bool)
    (hf : ∀ a, p (f a) = p a) : (l.map f).find? p = (l.find? p).map f := by
  induction l with
  | nil => rfl
  | cons a l ih =>
    by_cases hp : p a = true
    · simp [List.find?, hf a, hp]
    · simp only [Bool.not_eq_true] at hp
      simp [List.find?, hf a, hp, ih]

theorem find?_filter_of_imp {α : Type} (l : List α) (p q : α → Bool)
    (h : ∀ a, p a = true → q a = true) : (l.filter q).find? p = l.find? p := by
  induction l with
  | nil => rfl
  | cons a l ih =>
    by_cases hq : q a = true
    · by_cases hp : p a = true
      · simp [List.filter_cons, hq, List.find?, hp]
      · simp only [Bool.not_eq_true] at hp
        simp [List.filter_cons, hq, List.find?, hp, ih]
    · have hp : p a = false := by
        cases hpa : p a with
        | false => rfl
        | true => exact absurd (h a hpa) hq
      simp only [Bool.not_eq_true] at hq
      simp [List.filter_cons, hq, List.find?, hp, ih]

/-- The empty database is well formed. -/
theorem WF_empty (clock : Nat) : WF { users := [], conversations := [], messages := [], clock := clock } := by
  constructor <;> simp [WF]

/-- Every data-layer operation preserves well-formedness, so every database
reachable from the empty one satisfies `WF`. -/
theorem WF_applyOp (db : DB) (op : Op) (h : WF db) : WF (applyOp db op) := by
  obtain ⟨h1, h2⟩ := h
  cases op with
  | createUser uid un em ph =>
    show WF (create_user_row db uid un em ph).2
    rw [create_user_row]
    split
    · exact ⟨h1, h2⟩
    · exact ⟨h1, fun m hm => Nat.lt_succ_of_lt (h2 m hm)⟩
  | updateUserTokens uid it ot =>
    exact ⟨h1, h2⟩
  | createConversation cid uid t =>
    show WF (create_conversation db cid uid t)
    rw [create_conversation]
    split
    · exact ⟨h1, h2⟩
    · exact ⟨h1, fun m hm => Nat.lt_succ_of_lt (h2 m hm)⟩
  | updateConversation cid t s it ot =>
    exact ⟨h1, fun m hm => Nat.lt_succ_of_lt (h2 m hm)⟩
  | deleteConversation cid =>
    exact ⟨h1.filter _, fun m hm => h2 m (List.mem_of_mem_filter hm)⟩
  | addMessage mid cid r c it ot =>
    show WF (add_message db mid cid r c it ot).2
    rw [add_message]
    simp only
    split
    · split
      · exact ⟨h1, h2⟩
      · constructor
        · rw [List.pairwise_append]
          exact ⟨h1, List.pairwise_singleton _ _,
            fun a ha b hb => by rw [List.mem_singleton] at hb; subst hb; exact h2 a ha⟩
        · intro m hm
          rw [List.mem_append, List.mem_singleton] at hm
          rcases hm with hm | hm
          · exact Nat.lt_succ_of_lt (h2 m hm)
          · subst hm; exact Nat.lt_succ_self _
    · exact ⟨h1, h2⟩

/-- C1 (claim): for every conversation id, `get_conversation_messages`
returns exactly the messages previously added to that conversation (the
rows of the messages table with that conversation id, in arrival order),
sorted in strictly ascending order of their `created_at` timestamps, and
`get_messages_for_api` preserves this order. -/
theorem C1_messages_in_creation_order (db : DB) (cid : String) (h : WF db) :
    get_conversation_messages db cid =
      db.messages.filter (fun m => m.conversation_id == cid) ∧
    (get_conversation_messages db cid).Pairwise
      (fun a b => a.created_at < b.created_at) ∧
    get_messages_for_api db cid =
      (get_conversation_messages db cid).map
        (fun m => { role := m.role, content := m.content }) := by
  have hp : (db.messages.filter (fun m => m.conversation_id == cid)).Pairwise
      (fun a b => a.created_at < b.created_at) := h.1.filter _
  have hs : List.Sorted (fun a b : Message => a.created_at ≤ b.created_at)
      (db.messages.filter (fun m => m.conversation_id == cid)) :=
    hp.imp (fun hab => Nat.le_of_lt hab)
  have he : get_conversation_messages db cid =
      db.messages.filter (fun m => m.conversation_id == cid) :=
    List.Sorted.insertionSort_eq hs
  exact ⟨he, he ▸ hp, rfl⟩

/-- No operation other than `delete_conversation` removes or alters a
stored message row. -/
theorem messages_not_deleted (db : DB) (op : Op) (m : Message)
    (hm : m ∈ db.messages) (hnd : ¬ IsDeleteConv op) :
    m ∈ (applyOp db op).messages := by
  cases op with
  | createUser uid un em ph =>
    show m ∈ (create_user_row db uid un em ph).2.messages
    rw [create_user_row]; split <;> exact hm
  | updateUserTokens uid it ot => exact hm
  | createConversation cid uid t =>
    show m ∈ (create_conversation db cid uid t).messages
    rw [create_conversation]; split <;> exact hm
  | updateConversation cid t s it ot => exact hm
  | deleteConversation cid => exact absurd trivial hnd
  | addMessage mid cid r c it ot =>
    show m ∈ (add_message db mid cid r c it ot).2.messages
    rw [add_message]; simp only
    split
    · split
      · exact hm
      · exact List.mem_append_left _ hm
    · exact hm

/-- No operation other than `delete_conversation` removes a conversation
row (by id; `update_conversation` may rewrite its non-id fields). -/
theorem conv_ids_preserved (db : DB) (op : Op) (hnd : ¬ IsDeleteConv op) :
    ∀ c ∈ db.conversations, ∃ c' ∈ (applyOp db op).conversations, c'.id = c.id := by
  intro c hc
  cases op with
  | createUser uid un em ph =>
    show ∃ c' ∈ (create_user_row db uid un em ph).2.conversations, c'.id = c.id
    rw [create_user_row]; split <;> exact ⟨c, hc, rfl⟩
  | updateUserTokens uid it ot => exact ⟨c, hc, rfl⟩
  | createConversation cid uid t =>
    show ∃ c' ∈ (create_conversation db cid uid t).conversations, c'.id = c.id
    rw [create_conversation]
    split
    · exact ⟨c, hc, rfl⟩
    · exact ⟨c, List.mem_append_left _ hc, rfl⟩
  | updateConversation cid t s it ot =>
    refine ⟨_, List.mem_map_of_mem _ hc, ?_⟩
    by_cases h : (c.id == cid) = true <;> simp [h]
  | deleteConversation cid => exact absurd trivial hnd
  | addMessage mid cid r ct it ot =>
    show ∃ c' ∈ (add_message db mid cid r ct it ot).2.conversations, c'.id = c.id
    rw [add_message]; simp only
    split
    · split <;> exact ⟨c, hc, rfl⟩
    · exact ⟨c, hc, rfl⟩

/-- C4 (claim): `delete_conversation(c)` removes the conversation row `c`
and every message of conversation `c`, leaving all users, all other
conversations and all messages of other conversations unchanged; and no
other data-layer operation deletes a message or a conversation. -/
theorem C4_delete_conversation_frame :
    (∀ (db : DB) (cid : String),
      (delete_conversation db cid).users = db.users ∧
      (delete_conversation db cid).conversations =
        db.conversations.filter (fun c => c.id != cid) ∧
      (delete_conversation db cid).messages =
        db.messages.filter (fun m => m.conversation_id != cid)) ∧
    (∀ (db : DB) (op : Op), ¬ IsDeleteConv op →
      (∀ m ∈ db.messages, m ∈ (applyOp db op).messages) ∧
      (∀ c ∈ db.conversations, ∃ c' ∈ (applyOp db op).conversations, c'.id = c.id)) := by
  refine ⟨fun db cid => ⟨rfl, rfl, rfl⟩, fun db op hnd => ⟨?_, conv_ids_preserved db op hnd⟩⟩
  exact fun m hm => messages_not_deleted db op m hm hnd

/-- C7 (claim): a message row, once written by `add_message`, is never
altered by any data-layer operation (membership of the whole row, hence of
every field, is preserved), and it is removed exactly by
`delete_conversation` of its own conversation. -/
theorem C7_messages_immutable :
    (∀ (db : DB) (op : Op) (m : Message), m ∈ db.messages → ¬ IsDeleteConv op →
      m ∈ (applyOp db op).messages) ∧
    (∀ (db : DB) (cid : String) (m : Message), m ∈ db.messages →
      (m ∈ (delete_conversation db cid).messages ↔ m.conversation_id ≠ cid)) := by
  constructor
  · exact fun db op m hm hnd => messages_not_deleted db op m hm hnd
  · intro db cid m hm
    show m ∈ db.messages.filter (fun m => m.conversation_id != cid) ↔ _
    rw [List.mem_filter]
    constructor
    · intro h
      simpa [bne_iff_ne] using h.2
    · intro hne
      exact ⟨hm, by simpa [bne_iff_ne] using hne⟩

/-! ### Concrete fixtures for witnesses -/

def msgA : Message :=
  { id := "m1", conversation_id := "c", role := "user",
    content := .list [.dict [("text", .str "hi")]], created_at := 0,
    input_tokens := 0, output_tokens := 0 }

def msgB : Message :=
  { id := "m2", conversation_id := "d", role := "user",
    content := .list [.dict [("text", .str "other")]], created_at := 1,
    input_tokens := 0, output_tokens := 0 }

def msgC : Message :=
  { id := "m3", conversation_id := "c", role := "assistant",
    content := .list [.dict [("text", .str "hello")]], created_at := 2,
    input_tokens := 3, output_tokens := 5 }

def userW : User :=
  { id := "u1", username := "alice", email := "a@b.c", password_hash := "h",
    created_at := 0, total_input_tokens := 10, total_output_tokens := 20 }

def convW : Conversation :=
  { id := "c", user_id := "u1", title := "New Chat", created_at := 0,
    updated_at := 0, is_saved := false, input_tokens := 7, output_tokens := 9 }

def dbW : DB :=
  { users := [userW], conversations := [convW],
    messages := [msgA, msgB, msgC], clock := 3 }

theorem dbW_wf : WF dbW := ⟨by decide, by decide⟩

theorem msgA_mem : msgA ∈ dbW.messages := List.mem_cons_self _ _

/-- Witness for C1 at a concrete three-message database. -/
theorem C1_witness :
    WF dbW ∧
    (get_conversation_messages dbW "c" =
      dbW.messages.filter (fun m => m.conversation_id == "c") ∧
    (get_conversation_messages dbW "c").Pairwise
      (fun a b => a.created_at < b.created_at) ∧
    get_messages_for_api dbW "c" =
      (get_conversation_messages dbW "c").map
        (fun m => { role := m.role, content := m.content })) :=
  ⟨dbW_wf, C1_messages_in_creation_order dbW "c" dbW_wf⟩

/-- Witness for C4: a token update deletes nothing. -/
theorem C4_witness :
    ¬ IsDeleteConv (Op.updateUserTokens "u1" 1 2) ∧
    msgA ∈ dbW.messages ∧
    msgA ∈ (applyOp dbW (Op.updateUserTokens "u1" 1 2)).messages ∧
    (∃ c' ∈ (applyOp dbW (Op.updateUserTokens "u1" 1 2)).conversations, c'.id = convW.id) :=
  have hnd : ¬ IsDeleteConv (Op.updateUserTokens "u1" 1 2) := fun h => h
  have h4 := C4_delete_conversation_frame.2 dbW (Op.updateUserTokens "u1" 1 2) hnd
  ⟨hnd, msgA_mem, (h4.1 msgA msgA_mem),
    h4.2 convW (List.mem_cons_self _ _)⟩

/-- Witness for C7: a concrete message survives a non-delete operation and
is removed exactly by deleting its own conversation. -/
theorem C7_witness :
    msgA ∈ dbW.messages ∧
    ¬ IsDeleteConv (Op.createConversation "e" "u1" "T") ∧
    msgA ∈ (applyOp dbW (Op.createConversation "e" "u1" "T")).messages ∧
    (msgA ∈ (delete_conversation dbW "d").messages ↔ msgA.conversation_id ≠ "d") :=
  have hnd : ¬ IsDeleteConv (Op.createConversation "e" "u1" "T") := fun h => h
  ⟨msgA_mem, hnd,
    C7_messages_immutable.1 dbW (Op.createConversation "e" "u1" "T") msgA msgA_mem hnd,
    C7_messages_immutable.2 dbW "d" msgA msgA_mem⟩

/-! ### Token-counter lemmas -/

/-- `update_user_tokens` adds exactly the per-call deltas to the stored
counters of the targeted user. -/
theorem userTokens_update_user_tokens (db : DB) (uid : String) (it ot : Int) :
    userTokens (update_user_tokens db uid it ot) uid =
      (userTokens db uid).map (fun p => (p.1 + it, p.2 + ot)) := by
  unfold userTokens update_user_tokens
  rw [find?_map_pred]
  · cases hf : db.users.find? (fun u => u.id == uid) with
    | none => rfl
    | some u =>
      have hp : u.id = uid := by simpa using List.find?_some hf
      simp [hp]
  · intro a; by_cases h : (a.id == uid) = true <;> simp [h]

/-- `update_conversation` adds exactly the per-call deltas (0 when the
argument is omitted) to the stored counters of the targeted conversation. -/
theorem convTokens_update_conversation (db : DB) (cid : String)
    (t : Option String) (s : Option Bool) (it ot : Option Int) :
    convTokens (update_conversation db cid t s it ot) cid =
      (convTokens db cid).map (fun p => (p.1 + it.getD 0, p.2 + ot.getD 0)) := by
  unfold convTokens update_conversation
  rw [find?_map_pred]
  · cases hf : db.conversations.find? (fun c => c.id == cid) with
    | none => rfl
    | some c =>
      have hp : c.id = cid := by simpa using List.find?_some hf
      simp [hp]
  · intro a; by_cases h : (a.id == cid) = true <;> simp [h]

/-- One operation with non-negative token arguments cannot decrease a
user's counters. -/
theorem userTokens_mono_step (db : DB) (op : Op) (hop : NonNegOp op)
    (uid : String) (p : Int × Int) (h : userTokens db uid = some p) :
    ∃ q, userTokens (applyOp db op) uid = some q ∧ p.1 ≤ q.1 ∧ p.2 ≤ q.2 := by
  cases op with
  | createUser uid' un em ph =>
    show ∃ q, userTokens (create_user_row db uid' un em ph).2 uid = some q ∧ _
    rw [create_user_row]
    split
    · exact ⟨p, h, le_refl _, le_refl _⟩
    · unfold userTokens at h ⊢
      simp only [List.find?_append]
      obtain ⟨u0, hu0, hproj⟩ := Option.map_eq_some'.mp h
      rw [hu0]
      exact ⟨p, by simp [hproj], le_refl _, le_refl _⟩
  | updateUserTokens uid' it ot =>
    obtain ⟨hit, hot⟩ := hop
    show ∃ q, userTokens (update_user_tokens db uid' it ot) uid = some q ∧ _
    unfold userTokens at h
    unfold userTokens update_user_tokens
    rw [find?_map_pred]
    · obtain ⟨u0, hu0, hproj⟩ := Option.map_eq_some'.mp h
      rw [hu0]
      by_cases hid : (u0.id == uid') = true
      · have heq : u0.id = uid' := by simpa using hid
        refine ⟨(p.1 + it, p.2 + ot), ?_, by omega, by omega⟩
        simp [heq, ← hproj]
      · have hne : u0.id ≠ uid' := by simpa using hid
        exact ⟨p, by simp [hne, hproj], le_refl _, le_refl _⟩
    · intro a; by_cases ha : (a.id == uid') = true <;> simp [ha]
  | createConversation cid uid' t =>
    show ∃ q, userTokens (create_conversation db cid uid' t) uid = some q ∧ _
    rw [create_conversation]
    split <;> exact ⟨p, h, le_refl _, le_refl _⟩
  | updateConversation cid t s it ot =>
    exact ⟨p, h, le_refl _, le_refl _⟩
  | deleteConversation cid =>
    exact ⟨p, h, le_refl _, le_refl _⟩
  | addMessage mid cid r c it ot =>
    show ∃ q, userTokens (add_message db mid cid r c it ot).2 uid = some q ∧ _
    rw [add_message]; simp only
    split
    · split <;> exact ⟨p, h, le_refl _, le_refl _⟩
    · exact ⟨p, h, le_refl _, le_refl _⟩

/-- Sequences of operations with non-negative token arguments never
decrease a user's counters. -/
theorem userTokens_mono (ops : List Op) : ∀ (db : DB),
    (∀ op ∈ ops, NonNegOp op) → ∀ uid p, userTokens db uid = some p →
    ∃ q, userTokens (applyOps db ops) uid = some q ∧ p.1 ≤ q.1 ∧ p.2 ≤ q.2 := by
  induction ops with
  | nil => exact fun db _ uid p h => ⟨p, h, le_refl _, le_refl _⟩
  | cons op ops ih =>
    intro db hops uid p h
    obtain ⟨q, hq, h1, h2⟩ :=
      userTokens_mono_step db op (hops op (List.mem_cons_self _ _)) uid p h
    obtain ⟨r, hr, h3, h4⟩ :=
      ih (applyOp db op) (fun o ho => hops o (List.mem_cons_of_mem _ ho)) uid q hq
    exact ⟨r, hr, le_trans h1 h3, le_trans h2 h4⟩

/-- Once a conversation id is absent, operations that do not create that id
keep it absent. -/
theorem convTokens_none_step (db : DB) (op : Op) (cid : String)
    (hnc : ¬ CreatesConv cid op) (h : convTokens db cid = none) :
    convTokens (applyOp db op) cid = none := by
  cases op with
  | createUser uid un em ph =>
    show convTokens (create_user_row db uid un em ph).2 cid = none
    rw [create_user_row]; split <;> exact h
  | updateUserTokens uid it ot => exact h
  | createConversation cid' uid t =>
    have hne : cid' ≠ cid := fun he => hnc he
    show convTokens (create_conversation db cid' uid t) cid = none
    rw [create_conversation]
    split
    · exact h
    · unfold convTokens at h ⊢
      rw [List.find?_append]
      rw [Option.map_eq_none'] at h ⊢
      rw [h]
      simp [List.find?_cons, hne]
  | updateConversation cid' t s it ot =>
    show convTokens (update_conversation db cid' t s it ot) cid = none
    unfold convTokens at h ⊢
    unfold update_conversation
    rw [find?_map_pred]
    · rw [Option.map_eq_none'] at h ⊢
      simp [h]
    · intro a; by_cases ha : (a.id == cid') = true <;> simp [ha]
  | deleteConversation cid' =>
    unfold convTokens at h ⊢
    rw [Option.map_eq_none', List.find?_eq_none] at h ⊢
    exact fun c hc => h c (List.mem_of_mem_filter hc)
  | addMessage mid cid' r c it ot =>
    show convTokens (add_message db mid cid' r c it ot).2 cid = none
    rw [add_message]; simp only
    split
    · split <;> exact h
    · exact h

/-- One operation with non-negative token arguments that does not recreate
the conversation id either deletes the conversation or leaves its counters
no smaller. -/
theorem convTokens_mono_step (db : DB) (op : Op) (hop : NonNegOp op)
    (cid : String) (hnc : ¬ CreatesConv cid op) (p : Int × Int)
    (h : convTokens db cid = some p) :
    convTokens (applyOp db op) cid = none ∨
      ∃ q, convTokens (applyOp db op) cid = some q ∧ p.1 ≤ q.1 ∧ p.2 ≤ q.2 := by
  cases op with
  | createUser uid un em ph =>
    refine .inr ⟨p, ?_, le_refl _, le_refl _⟩
    show convTokens (create_user_row db uid un em ph).2 cid = some p
    rw [create_user_row]; split <;> exact h
  | updateUserTokens uid it ot => exact .inr ⟨p, h, le_refl _, le_refl _⟩
  | createConversation cid' uid t =>
    refine .inr ⟨p, ?_, le_refl _, le_refl _⟩
    show convTokens (create_conversation db cid' uid t) cid = some p
    rw [create_conversation]
    split
    · exact h
    · unfold convTokens at h ⊢
      rw [List.find?_append]
      obtain ⟨c0, hc0, hproj⟩ := Option.map_eq_some'.mp h
      rw [hc0]
      simp [hproj]
  | updateConversation cid' t s it ot =>
    obtain ⟨hit, hot⟩ := hop
    refine .inr ?_
    show ∃ q, convTokens (update_conversation db cid' t s it ot) cid = some q ∧ _
    unfold convTokens at h
    unfold convTokens update_conversation
    rw [find?_map_pred]
    · obtain ⟨c0, hc0, hproj⟩ := Option.map_eq_some'.mp h
      rw [hc0]
      by_cases hid : (c0.id == cid') = true
      · have heq : c0.id = cid' := by simpa using hid
        have hit0 : 0 ≤ it.getD 0 := by
          cases it with
          | none => simp
          | some x => simpa using hit x rfl
        have hot0 : 0 ≤ ot.getD 0 := by
          cases ot with
          | none => simp
          | some x => simpa using hot x rfl
        refine ⟨(p.1 + it.getD 0, p.2 + ot.getD 0), ?_, by omega, by omega⟩
        simp [heq, ← hproj]
      · have hne : c0.id ≠ cid' := by simpa using hid
        exact ⟨p, by simp [hne, hproj], le_refl _, le_refl _⟩
    · intro a; by_cases ha : (a.id == cid') = true <;> simp [ha]
  | deleteConversation cid' =>
    by_cases hdel : cid' = cid
    · left
      subst hdel
      unfold convTokens
      rw [Option.map_eq_none', List.find?_eq_none]
      intro c hc
      have := List.of_mem_filter hc
      intro hpc
      have h1 : c.id = cid' := by simpa using hpc
      simp [h1] at this
    · right
      refine ⟨p, ?_, le_refl _, le_refl _⟩
      have hconvs : (delete_conversation db cid').conversations =
          db.conversations.filter (fun c => c.id != cid') := rfl
      show convTokens (delete_conversation db cid') cid = some p
      unfold convTokens at h ⊢
      rw [hconvs, find?_filter_of_imp]
      · exact h
      · intro a ha
        have h1 : a.id = cid := by simpa using ha
        simp only [h1, bne_iff_ne, decide_eq_true_eq]
        exact fun hh => hdel hh.symm
  | addMessage mid cid' r c it ot =>
    refine .inr ⟨p, ?_, le_refl _, le_refl _⟩
    show convTokens (add_message db mid cid' r c it ot).2 cid = some p
    rw [add_message]; simp only
    split
    · split <;> exact h
    · exact h

/-- Absence of a conversation id persists through a sequence of operations
that never recreates it. -/
theorem convTokens_none (ops : List Op) : ∀ (db : DB) (cid : String),
    (∀ op ∈ ops, ¬ CreatesConv cid op) → convTokens db cid = none →
    convTokens (applyOps db ops) cid = none := by
  induction ops with
  | nil => exact fun db cid _ h => h
  | cons op ops ih =>
    intro db cid hops h
    exact ih (applyOp db op) cid (fun o ho => hops o (List.mem_cons_of_mem _ ho))
      (convTokens_none_step db op cid (hops op (List.mem_cons_self _ _)) h)

/-- Sequences of operations with non-negative token arguments that never
recreate the conversation id leave its counters either deleted or no
smaller. -/
theorem convTokens_mono (ops : List Op) : ∀ (db : DB),
    (∀ op ∈ ops, NonNegOp op) → ∀ cid, (∀ op ∈ ops, ¬ CreatesConv cid op) →
    ∀ p, convTokens db cid = some p →
    convTokens (applyOps db ops) cid = none ∨
      ∃ q, convTokens (applyOps db ops) cid = some q ∧ p.1 ≤ q.1 ∧ p.2 ≤ q.2 := by
  induction ops with
  | nil => exact fun db _ cid _ p h => .inr ⟨p, h, le_refl _, le_refl _⟩
  | cons op ops ih =>
    intro db hops cid hnc p h
    rcases convTokens_mono_step db op (hops op (List.mem_cons_self _ _)) cid
        (hnc op (List.mem_cons_self _ _)) p h with hnone | ⟨q, hq, h1, h2⟩
    · exact .inl (convTokens_none ops (applyOp db op) cid
        (fun o ho => hnc o (List.mem_cons_of_mem _ ho)) hnone)
    · rcases ih (applyOp db op) (fun o ho => hops o (List.mem_cons_of_mem _ ho))
          cid (fun o ho => hnc o (List.mem_cons_of_mem _ ho)) q hq with
        hnone | ⟨r, hr, h3, h4⟩
      · exact .inl hnone
      · exact .inr ⟨r, hr, le_trans h1 h3, le_trans h2 h4⟩

/-- C2 (claim): the user and conversation token counters are only ever
changed by adding the per-call deltas to the stored value
(`update_user_tokens` and `update_conversation` execute
`counter = counter + delta`), hence for every sequence of operations with
non-negative token arguments the counters `total_input_tokens`,
`total_output_tokens`, `input_tokens` and `output_tokens` never decrease
(a conversation counter ceases to exist only if the conversation is
deleted; the id of a deleted conversation is never reissued, uuid4 ids
being fresh, which the sequence hypothesis `¬ CreatesConv` expresses). -/
theorem C2_token_counters_monotone :
    (∀ (db : DB) (uid : String) (it ot : Int),
      userTokens (update_user_tokens db uid it ot) uid =
        (userTokens db uid).map (fun p => (p.1 + it, p.2 + ot))) ∧
    (∀ (db : DB) (cid : String) (t : Option String) (s : Option Bool)
        (it ot : Option Int),
      convTokens (update_conversation db cid t s it ot) cid =
        (convTokens db cid).map (fun p => (p.1 + it.getD 0, p.2 + ot.getD 0))) ∧
    (∀ (ops : List Op) (db : DB), (∀ op ∈ ops, NonNegOp op) →
      ∀ uid p, userTokens db uid = some p →
      ∃ q, userTokens (applyOps db ops) uid = some q ∧ p.1 ≤ q.1 ∧ p.2 ≤ q.2) ∧
    (∀ (ops : List Op) (db : DB), (∀ op ∈ ops, NonNegOp op) →
      ∀ cid, (∀ op ∈ ops, ¬ CreatesConv cid op) →
      ∀ p, convTokens db cid = some p →
      convTokens (applyOps db ops) cid = none ∨
        ∃ q, convTokens (applyOps db ops) cid = some q ∧ p.1 ≤ q.1 ∧ p.2 ≤ q.2) :=
  ⟨userTokens_update_user_tokens, convTokens_update_conversation,
    userTokens_mono, convTokens_mono⟩

/-- Witness for C2 at a concrete two-operation history. -/
theorem C2_witness :
    (∀ op ∈ [Op.updateUserTokens "u1" 3 5,
      Op.updateConversation "c" none none (some 2) (some 4)], NonNegOp op) ∧
    (∀ op ∈ [Op.updateUserTokens "u1" 3 5,
      Op.updateConversation "c" none none (some 2) (some 4)], ¬ CreatesConv "c" op) ∧
    userTokens dbW "u1" = some (10, 20) ∧
    convTokens dbW "c" = some (7, 9) ∧
    (∃ q, userTokens (applyOps dbW [Op.updateUserTokens "u1" 3 5,
        Op.updateConversation "c" none none (some 2) (some 4)]) "u1" = some q ∧
      (10 : Int) ≤ q.1 ∧ (20 : Int) ≤ q.2) ∧
    (convTokens (applyOps dbW [Op.updateUserTokens "u1" 3 5,
        Op.updateConversation "c" none none (some 2) (some 4)]) "c" = none ∨
      ∃ q, convTokens (applyOps dbW [Op.updateUserTokens "u1" 3 5,
        Op.updateConversation "c" none none (some 2) (some 4)]) "c" = some q ∧
      (7 : Int) ≤ q.1 ∧ (9 : Int) ≤ q.2) := by
  have hnn : ∀ op ∈ [Op.updateUserTokens "u1" 3 5,
      Op.updateConversation "c" none none (some 2) (some 4)], NonNegOp op := by
    intro op hop
    cases hop with
    | head => exact ⟨by norm_num, by norm_num⟩
    | tail _ h =>
      cases h with
      | head =>
        exact ⟨fun x hx => by cases hx; norm_num, fun x hx => by cases hx; norm_num⟩
      | tail _ h => cases h
  have hnc : ∀ op ∈ [Op.updateUserTokens "u1" 3 5,
      Op.updateConversation "c" none none (some 2) (some 4)], ¬ CreatesConv "c" op := by
    intro op hop
    cases hop with
    | head => exact fun hc => hc
    | tail _ h =>
      cases h with
      | head => exact fun hc => hc
      | tail _ h => cases h
  refine ⟨hnn, hnc, rfl, rfl, ?_, ?_⟩
  · exact C2_token_counters_monotone.2.2.1 _ dbW hnn "u1" (10, 20) rfl
  · exact C2_token_counters_monotone.2.2.2 _ dbW hnn "c" hnc (7, 9) rfl

/-- Appending a message to a well-formed database appends its cleaned
content to the end of the conversation's API view. -/
theorem get_api_after_add (db : DB) (mid cid role : String) (content : PyVal)
    (it ot : Int) (hwf : WF db) (hfresh : ∀ m' ∈ db.messages, m'.id ≠ mid)
    (hjson : jsonOk (serialize_content content) = true) :
    get_messages_for_api (add_message db mid cid role content it ot).2 cid =
      get_messages_for_api db cid ++
        [{ role := role, content := serialize_content content }] := by
  have hany : (db.messages.any fun m => m.id == mid) = false := by
    rw [List.any_eq_false]
    intro m hm
    simpa using hfresh m hm
  have hdb2 : (add_message db mid cid role content it ot).2 =
      { db with
        messages := db.messages ++
          [{ id := mid, conversation_id := cid, role := role,
             content := serialize_content content, created_at := db.clock,
             input_tokens := it, output_tokens := ot }],
        clock := db.clock + 1 } := by
    rw [add_message]
    simp [hjson, hany]
  unfold get_messages_for_api get_conversation_messages
  rw [hdb2]
  simp only [List.filter_append]
  simp only [List.filter_cons, List.filter_nil, beq_self_eq_true, if_true]
  have hsorted0 : List.Sorted (fun a b : Message => a.created_at ≤ b.created_at)
      (db.messages.filter (fun m => m.conversation_id == cid)) :=
    (hwf.1.filter _).imp (fun hab => Nat.le_of_lt hab)
  have hsorted : List.Sorted (fun a b : Message => a.created_at ≤ b.created_at)
      (db.messages.filter (fun m => m.conversation_id == cid) ++
        [{ id := mid, conversation_id := cid, role := role,
           content := serialize_content content, created_at := db.clock,
           input_tokens := it, output_tokens := ot }]) := by
    rw [List.Sorted, List.pairwise_append]
    refine ⟨hsorted0, List.pairwise_singleton _ _, ?_⟩
    intro a ha b hb
    rw [List.mem_singleton] at hb
    subst hb
    exact Nat.le_of_lt (hwf.2 a (List.mem_of_mem_filter ha))
  rw [List.Sorted.insertionSort_eq hsorted, List.Sorted.insertionSort_eq hsorted0,
    List.map_append]
  rfl

/-- C5 counterexample to the claim as stated: for content that is a list of
blocks containing a Python `bytes` value (as the UI produces for image and
PDF attachments), `json.dumps` inside `add_message` raises `TypeError`, so
nothing is stored and the round-trip does not recover the blocks. -/
theorem C5_counterexample :
    get_messages_for_api
        (add_message { users := [], conversations := [], messages := [], clock := 0 }
          "m1" "c" "user" (.list [.dict [("image", .bytes [0])]]) 0 0).2 "c" ≠
      [{ role := "user", content := .list [.dict [("image", .bytes [0])]] }] := by
  intro h
  have h2 := congrArg List.length h
  rw [show get_messages_for_api
      (add_message { users := [], conversations := [], messages := [], clock := 0 }
        "m1" "c" "user" (.list [.dict [("image", .bytes [0])]]) 0 0).2 "c" = []
    from rfl] at h2
  simp at h2

/-- C5 (amended): for every role and every *JSON-serialisable* content —
a string, or a list of blocks none of whose values is a Python `bytes`
object — `add_message` followed by `get_messages_for_api` appends exactly
`{'role': role, 'content': blocks}` to the conversation's API view, where
for a string `s` the blocks are `[{'text': s}]`, and for a list the blocks
are the input list with the `'type'` key removed from every dict block
(`clean_block`), all other keys and the block order preserved.  (The claim
as stated fails for bytes-carrying lists: `C5_counterexample`.) -/
theorem C5_roundtrip_serializable (db : DB) (mid cid role : String)
    (content : PyVal) (it ot : Int)
    (hwf : WF db) (hfresh : ∀ m' ∈ db.messages, m'.id ≠ mid) :
    (∀ s, content = .str s →
      get_messages_for_api (add_message db mid cid role content it ot).2 cid =
        get_messages_for_api db cid ++
          [{ role := role, content := .list [.dict [("text", .str s)]] }]) ∧
    (∀ bs, content = .list bs → jsonOkList (bs.map clean_block) = true →
      get_messages_for_api (add_message db mid cid role content it ot).2 cid =
        get_messages_for_api db cid ++
          [{ role := role, content := .list (bs.map clean_block) }]) := by
  constructor
  · intro s hs
    subst hs
    exact get_api_after_add db mid cid role (.str s) it ot hwf hfresh rfl
  · intro bs hbs hj
    subst hbs
    exact get_api_after_add db mid cid role (.list bs) it ot hwf hfresh hj

/-- Witness for the amended C5 at a concrete content list carrying a
`"type"` key. -/
theorem C5_witness :
    WF dbW ∧ (∀ m' ∈ dbW.messages, m'.id ≠ "m9") ∧
    jsonOkList ([PyVal.dict [("type", PyVal.str "text"),
      ("text", PyVal.str "hi")]].map clean_block) = true ∧
    get_messages_for_api
        (add_message dbW "m9" "c" "user"
          (.list [.dict [("type", .str "text"), ("text", .str "hi")]]) 0 0).2 "c" =
      get_messages_for_api dbW "c" ++
        [{ role := "user",
           content := .list ([PyVal.dict [("type", PyVal.str "text"),
             ("text", PyVal.str "hi")]].map clean_block) }] := by
  have hfresh : ∀ m' ∈ dbW.messages, m'.id ≠ "m9" := by decide
  exact ⟨dbW_wf, hfresh, rfl,
    (C5_roundtrip_serializable dbW "m9" "c" "user"
      (.list [.dict [("type", .str "text"), ("text", .str "hi")]]) 0 0
      dbW_wf hfresh).2 _ rfl rfl⟩

/-- For a file of one of the five text-like MIME types whose extracted text
is present and non-empty and whose data is valid base64, the two pipelines
contribute the same blocks. -/
theorem format_build_agree_file (f : FileDict)
    (h1 : f.ftype ∈ textMimeTypes)
    (h2 : ∃ t, f.extracted_text = some t ∧ t ≠ "")
    (h3 : (b64decode f.data).isSome) :
    format_file_blocks f = build_file_blocks f := by
  obtain ⟨t, ht, hne⟩ := h2
  obtain ⟨bs, hbs⟩ := Option.isSome_iff_exists.mp h3
  have hbne : (t != "") = true := by simpa using hne
  simp only [textMimeTypes, List.mem_cons, List.not_mem_nil, or_false] at h1
  have himg : py_startswith f.ftype "image/" = false := by
    rcases h1 with h | h | h | h | h <;> rw [h] <;> decide
  have hpdf : (f.ftype == "application/pdf") = false := by
    rcases h1 with h | h | h | h | h <;> rw [h] <;> decide
  have htxt : textMimeTypes.contains f.ftype = true := by
    rcases h1 with h | h | h | h | h <;> rw [h] <;> decide
  unfold format_file_blocks build_file_blocks
  rw [hbs, ht]
  dsimp only
  rw [if_neg (by simp [himg]), if_neg (by simp [hpdf]), if_pos htxt,
    if_neg (by simp [himg]), if_neg (by simp [hpdf])]
  simp [hbne]

/-- C3 counterexample to the claim as stated: for a `text/plain` file with
no extracted text, `format_message_with_files` emits a `[File: ...]` text
block while `build_api_message` skips the file, so the two pipelines
disagree. -/
theorem C3_counterexample :
    format_message_with_files ""
        [{ name := "a.txt", ftype := "text/plain", data := "",
           extracted_text := none }] ≠
      build_api_message ""
        [{ name := "a.txt", ftype := "text/plain", data := "",
           extracted_text := none }] := by
  intro h
  have h2 := congrArg
    (fun m => match m.content with | PyVal.list l => l.length | _ => 0) h
  exact absurd h2 (by decide)

/-- C3 (amended): the two message/content normalization pipelines are NOT
equivalent in general (`C3_counterexample`; they also differ on image
format naming, base64 decoding of the `bytes` payload, and PDF name
sanitisation).  They do agree — same `{'role': 'user', 'content': [...]}`
dict with identical blocks in identical order — whenever every attached
file has one of the five text-like MIME types, a present and non-empty
`extracted_text`, and base64-decodable `data`. -/
theorem C3_pipelines_agree_on_text_files (text : String) (files : List FileDict)
    (h : ∀ f ∈ files, f.ftype ∈ textMimeTypes ∧
      (∃ t, f.extracted_text = some t ∧ t ≠ "") ∧ (b64decode f.data).isSome) :
    format_message_with_files text files = build_api_message text files := by
  have hmaps : files.map format_file_blocks = files.map build_file_blocks :=
    List.map_congr_left
      (fun f hf => format_build_agree_file f (h f hf).1 (h f hf).2.1 (h f hf).2.2)
  rw [format_message_with_files, build_api_message, hmaps]

/-- A concrete markdown attachment. -/
def fMd : FileDict :=
  { name := "n.md", ftype := "text/markdown", data := "SGVsbG8=",
    extracted_text := some "Hello" }

/-- Witness for the amended C3 at a concrete markdown attachment. -/
theorem C3_witness :
    (∀ f ∈ [fMd], f.ftype ∈ textMimeTypes ∧
      (∃ t, f.extracted_text = some t ∧ t ≠ "") ∧ (b64decode f.data).isSome) ∧
    format_message_with_files "hi" [fMd] = build_api_message "hi" [fMd] := by
  have hf : ∀ f ∈ [fMd], f.ftype ∈ textMimeTypes ∧
      (∃ t, f.extracted_text = some t ∧ t ≠ "") ∧ (b64decode f.data).isSome := by
    intro f hf
    cases hf with
    | head => exact ⟨by decide, ⟨"Hello", rfl, by decide⟩, by decide⟩
    | tail _ h => cases h
  exact ⟨hf, C3_pipelines_agree_on_text_files "hi" _ hf⟩

/-- The token counters carried by the final chunk of the folded stream are
exactly those of the last metadata event (0 when absent). -/
theorem fold_stream_snd (events : List BedrockEvent) :
    ∀ (it ot : Int) (acc : String × Int × Int),
    ((stream_events it ot events).foldl
      (fun acc chunk =>
        if chunk.is_final then (acc.1, chunk.input_tokens, chunk.output_tokens)
        else (acc.1 ++ chunk.text, acc.2.1, acc.2.2)) acc).2 =
      last_usage_from (it, ot) events := by
  induction events with
  | nil => intro it ot acc; rfl
  | cons e rest ih =>
    intro it ot acc
    cases e with
    | contentBlockDelta t =>
      cases t with
      | none => exact ih it ot acc
      | some s => exact ih it ot _
    | metadata u =>
      have h := ih (usageVals u).1 (usageVals u).2 acc
      simpa using h
    | other => exact ih it ot acc

/-- `fold_chunks ∘ stream_message` recovers the last metadata usage. -/
theorem fold_chunks_tokens (events : List BedrockEvent) :
    (fold_chunks (stream_message events)).2 = last_usage events :=
  fold_stream_snd events 0 0 ("", 0, 0)

/-- `add_message` on serialisable content and a fresh id stores the cleaned
content with the current clock. -/
theorem add_message_success (db : DB) (mid cid role : String) (content : PyVal)
    (it ot : Int) (hjson : jsonOk (serialize_content content) = true)
    (hfresh : ∀ m ∈ db.messages, m.id ≠ mid) :
    add_message db mid cid role content it ot =
      (some { id := mid, conversation_id := cid, role := role,
              content := serialize_content content, created_at := db.clock,
              input_tokens := it, output_tokens := ot },
        { db with
            messages := db.messages ++
              [{ id := mid, conversation_id := cid, role := role,
                 content := serialize_content content, created_at := db.clock,
                 input_tokens := it, output_tokens := ot }],
            clock := db.clock + 1 }) := by
  have hany : (db.messages.any fun m => m.id == mid) = false := by
    rw [List.any_eq_false]; intro m hm; simpa using hfresh m hm
  rw [add_message]; simp [hjson, hany]

theorem convTokens_after_user_update (db : DB) (uid : String) (it ot : Int)
    (cid : String) :
    convTokens (update_user_tokens db uid it ot) cid = convTokens db cid := rfl

theorem userTokens_after_conv_update (db : DB) (cid : String) (t : Option String)
    (s : Option Bool) (it ot : Option Int) (uid : String) :
    userTokens (update_conversation db cid t s it ot) uid = userTokens db uid := rfl

/-- C6 (claim): for every completed chat send, the input/output token
counts carried by the final stream chunk — the counts of the last metadata
event of the remote stream, or 0 if none — are added exactly once to the
conversation's `input_tokens`/`output_tokens`, exactly once to the user's
`total_input_tokens`/`total_output_tokens`, and recorded on the stored
assistant message. -/
theorem C6_token_accounting (events : List BedrockEvent) (db : DB)
    (conv_id user_id prompt : String) (files : List FileDict)
    (umid amid : String) (auto_title : Option String)
    (hjson : jsonOk (serialize_content (build_api_message prompt files).content) = true)
    (humid : ∀ m ∈ db.messages, m.id ≠ umid)
    (hamid : ∀ m ∈ db.messages, m.id ≠ amid)
    (hne : amid ≠ umid) :
    ∃ db', send_chat_message events db conv_id user_id prompt files umid amid
        auto_title = some db' ∧
      db'.messages = db.messages ++
        [{ id := umid, conversation_id := conv_id, role := "user",
           content := serialize_content (build_api_message prompt files).content,
           created_at := db.clock, input_tokens := 0, output_tokens := 0 },
         { id := amid, conversation_id := conv_id, role := "assistant",
           content := serialize_content (.list [.dict [("text",
             .str (fold_chunks (stream_message events)).1)]]),
           created_at := db.clock + 1,
           input_tokens := (last_usage events).1,
           output_tokens := (last_usage events).2 }] ∧
      convTokens db' conv_id = (convTokens db conv_id).map
        (fun p => (p.1 + (last_usage events).1, p.2 + (last_usage events).2)) ∧
      userTokens db' user_id = (userTokens db user_id).map
        (fun p => (p.1 + (last_usage events).1, p.2 + (last_usage events).2)) := by
  have hfold : (fold_chunks (stream_message events)).2 = last_usage events :=
    fold_chunks_tokens events
  have hadd1 := add_message_success db umid conv_id "user"
    (build_api_message prompt files).content 0 0 hjson humid
  rw [send_chat_message, hadd1]
  dsimp only
  rw [hfold]
  generalize hdb1 : ({ db with
      messages := db.messages ++
        [{ id := umid, conversation_id := conv_id, role := "user",
           content := serialize_content (build_api_message prompt files).content,
           created_at := db.clock, input_tokens := 0, output_tokens := 0 }],
      clock := db.clock + 1 } : DB) = db1
  have hmsgs1 : db1.messages = db.messages ++
      [{ id := umid, conversation_id := conv_id, role := "user",
         content := serialize_content (build_api_message prompt files).content,
         created_at := db.clock, input_tokens := 0, output_tokens := 0 }] := by
    rw [← hdb1]
  have hclock1 : db1.clock = db.clock + 1 := by rw [← hdb1]
  have hfresh2 : ∀ m ∈ db1.messages, m.id ≠ amid := by
    rw [hmsgs1]
    intro m hm
    rcases List.mem_append.mp hm with hm | hm
    · exact hamid m hm
    · rw [List.mem_singleton] at hm
      subst hm
      exact fun h => hne h.symm
  have hadd2 := add_message_success db1 amid conv_id "assistant"
    (.list [.dict [("text", .str (fold_chunks (stream_message events)).1)]])
    (last_usage events).1 (last_usage events).2 rfl hfresh2
  rw [hadd2]
  dsimp only
  generalize hdb2 : ({ db1 with
      messages := db1.messages ++
        [{ id := amid, conversation_id := conv_id, role := "assistant",
           content := serialize_content (.list [.dict [("text",
             .str (fold_chunks (stream_message events)).1)]]),
           created_at := db1.clock, input_tokens := (last_usage events).1,
           output_tokens := (last_usage events).2 }],
      clock := db1.clock + 1 } : DB) = db2
  have hmsgs2 : db2.messages = db1.messages ++
      [{ id := amid, conversation_id := conv_id, role := "assistant",
         content := serialize_content (.list [.dict [("text",
           .str (fold_chunks (stream_message events)).1)]]),
         created_at := db1.clock, input_tokens := (last_usage events).1,
         output_tokens := (last_usage events).2 }] := by
    rw [← hdb2]
  have hcv2 : convTokens db2 conv_id = convTokens db conv_id := by
    rw [← hdb2, ← hdb1]
    exact rfl
  have hut2 : userTokens db2 user_id = userTokens db user_id := by
    rw [← hdb2, ← hdb1]
    exact rfl
  have hmessages : ∀ dbx : DB, dbx = db2 →
      dbx.messages = db.messages ++
        [{ id := umid, conversation_id := conv_id, role := "user",
           content := serialize_content (build_api_message prompt files).content,
           created_at := db.clock, input_tokens := 0, output_tokens := 0 },
         { id := amid, conversation_id := conv_id, role := "assistant",
           content := serialize_content (.list [.dict [("text",
             .str (fold_chunks (stream_message events)).1)]]),
           created_at := db.clock + 1,
           input_tokens := (last_usage events).1,
           output_tokens := (last_usage events).2 }] := by
    intro dbx hx
    rw [hx, hmsgs2, hmsgs1, hclock1, List.append_assoc]
    rfl
  cases auto_title with
  | none =>
    refine ⟨_, rfl, ?_, ?_, ?_⟩
    · exact hmessages db2 rfl
    · rw [convTokens_after_user_update, convTokens_update_conversation, hcv2]
      exact rfl
    · rw [userTokens_update_user_tokens, userTokens_after_conv_update, hut2]
  | some t =>
    refine ⟨_, rfl, ?_, ?_, ?_⟩
    · exact hmessages db2 rfl
    · rw [convTokens_update_conversation, convTokens_after_user_update,
        convTokens_update_conversation, hcv2]
      cases convTokens db conv_id <;> simp
    · rw [userTokens_after_conv_update, userTokens_update_user_tokens,
        userTokens_after_conv_update, hut2]

/-- A concrete stream: one text delta then a usage metadata event. -/
def eventsW : List BedrockEvent :=
  [BedrockEvent.contentBlockDelta (some "Hi"),
   BedrockEvent.metadata (some (some 3, some 5))]

/-- Witness for C6 at a concrete send over `dbW`. -/
theorem C6_witness :
    jsonOk (serialize_content (build_api_message "hello" []).content) = true ∧
    (∀ m ∈ dbW.messages, m.id ≠ "n1") ∧
    (∀ m ∈ dbW.messages, m.id ≠ "n2") ∧
    ("n2" : String) ≠ "n1" ∧
    (∃ db', send_chat_message eventsW dbW "c" "u1" "hello" [] "n1" "n2" none =
        some db' ∧
      db'.messages = dbW.messages ++
        [{ id := "n1", conversation_id := "c", role := "user",
           content := serialize_content (build_api_message "hello" []).content,
           created_at := dbW.clock, input_tokens := 0, output_tokens := 0 },
         { id := "n2", conversation_id := "c", role := "assistant",
           content := serialize_content (.list [.dict [("text",
             .str (fold_chunks (stream_message eventsW)).1)]]),
           created_at := dbW.clock + 1,
           input_tokens := (last_usage eventsW).1,
           output_tokens := (last_usage eventsW).2 }] ∧
      convTokens db' "c" = (convTokens dbW "c").map
        (fun p => (p.1 + (last_usage eventsW).1, p.2 + (last_usage eventsW).2)) ∧
      userTokens db' "u1" = (userTokens dbW "u1").map
        (fun p => (p.1 + (last_usage eventsW).1, p.2 + (last_usage eventsW).2))) := by
  refine ⟨rfl, by decide, by decide, by decide, ?_⟩
  exact C6_token_accounting eventsW dbW "c" "u1" "hello" [] "n1" "n2" none
    rfl (by decide) (by decide) (by decide)

/-- C8 (claim): `process_file(filename, file_data)` raises
`FileProcessingError` iff the lowercased filename extension is not a key of
`ALLOWED_EXTENSIONS` or `len(file_data)` exceeds `25*1024*1024` bytes;
otherwise it returns a dict whose `name` is the original filename, whose
`type` is the MIME type mapped from the extension, whose `data` is the
base64 encoding of `file_data`, and with `extracted_text` present exactly
for `.txt`/`.md`/`.csv`/`.doc`/`.docx` files.  Quantified over the external
text decoder and docx extractor. -/
theorem C8_process_file (du : List Nat → Option String) (dx : List Nat → String)
    (filename : String) (file_data : List Nat) :
    ((∃ e, process_file du dx filename file_data = .error e) ↔
      (ALLOWED_EXTENSIONS.lookup (py_lower (path_suffix filename)) = none ∨
        file_data.length > MAX_FILE_SIZE_MB * 1024 * 1024)) ∧
    (∀ info, process_file du dx filename file_data = .ok info →
      info.name = filename ∧
      ALLOWED_EXTENSIONS.lookup (py_lower (path_suffix filename)) =
        some info.ftype ∧
      info.data = b64encode file_data ∧
      (info.extracted_text.isSome ↔
        py_lower (path_suffix filename) ∈
          [".txt", ".md", ".csv", ".doc", ".docx"])) := by
  unfold process_file validate_file get_mime_type
  by_cases h1 : (ALLOWED_EXTENSIONS.lookup (py_lower (path_suffix filename))).isNone
  · have h1' : ALLOWED_EXTENSIONS.lookup (py_lower (path_suffix filename)) = none :=
      Option.isNone_iff_eq_none.mp h1
    simp [h1']
  · have hm : ∃ m, ALLOWED_EXTENSIONS.lookup (py_lower (path_suffix filename)) =
        some m := by
      cases hl : ALLOWED_EXTENSIONS.lookup (py_lower (path_suffix filename)) with
      | none => rw [hl] at h1; simp at h1
      | some m => exact ⟨m, rfl⟩
    obtain ⟨m, hm⟩ := hm
    by_cases h2 : file_data.length > MAX_FILE_SIZE_MB * 1024 * 1024
    · simp [hm, h2]
    · simp [hm, h2]
      by_cases ha : py_lower (path_suffix filename) = ".txt" ∨
          py_lower (path_suffix filename) = ".md" ∨
          py_lower (path_suffix filename) = ".csv"
      · rcases ha with h | h | h <;> simp [h]
      · push_neg at ha
        by_cases hb : py_lower (path_suffix filename) = ".doc" ∨
            py_lower (path_suffix filename) = ".docx"
        · rcases hb with h | h <;> simp [h, ha.1, ha.2.1, ha.2.2]
        · push_neg at hb
          simp [ha.1, ha.2.1, ha.2.2, hb.1, hb.2]

/-- The dict produced for a concrete `.TXT` upload. -/
def fTxtInfo : FileDict :=
  { name := "notes.TXT", ftype := "text/plain", data := "aGk=",
    extracted_text := some "hi" }

/-- Witness for C8: a two-byte `notes.TXT` upload processes to the expected
dict, with the UTF-8 decoder stubbed to fail so the latin-1 fallback runs. -/
theorem C8_witness :
    process_file (fun _ => none) (fun _ => "") "notes.TXT" [104, 105] =
      .ok fTxtInfo ∧
    (fTxtInfo.name = "notes.TXT" ∧
     ALLOWED_EXTENSIONS.lookup (py_lower (path_suffix "notes.TXT")) =
       some fTxtInfo.ftype ∧
     fTxtInfo.data = b64encode [104, 105] ∧
     (fTxtInfo.extracted_text.isSome ↔
       py_lower (path_suffix "notes.TXT") ∈
         [".txt", ".md", ".csv", ".doc", ".docx"])) :=
  ⟨rfl, (C8_process_file (fun _ => none) (fun _ => "") "notes.TXT" [104, 105]).2
    fTxtInfo rfl⟩

/-- Hex digits of values below 16 are hex characters. -/
theorem isHexChar_hexDigit (n : Nat) (h : n < 16) :
    isHexChar (hexDigit n) = true := by
  interval_cases n <;> decide

/-- `hexVal` inverts `hexDigit` below 16. -/
theorem hexVal_hexDigit (n : Nat) (h : n < 16) : hexVal (hexDigit n) = n := by
  interval_cases n <;> decide

/-- Hex digits are never the colon separator. -/
theorem hexDigit_ne_colon (n : Nat) (h : n < 16) : hexDigit n ≠ ':' := by
  interval_cases n <;> decide

/-- No character of a byte string's hex rendering is a colon. -/
theorem hexChars_ne_colon (bs : List Nat) (hbs : ∀ b ∈ bs, b < 256) :
    ∀ c ∈ hexChars bs, c ≠ ':' := by
  induction bs with
  | nil => intro c hc; cases hc
  | cons b bs ih =>
    intro c hc
    have hb : b < 256 := hbs b (List.mem_cons_self _ _)
    rcases hc with _ | ⟨_, hc⟩
    · exact hexDigit_ne_colon _ (Nat.div_lt_of_lt_mul hb)
    · rcases hc with _ | ⟨_, hc⟩
      · exact hexDigit_ne_colon _ (Nat.mod_lt _ (by norm_num))
      · exact ih (fun x hx => hbs x (List.mem_cons_of_mem _ hx)) c hc

/-- `str.split` on a separator-free string returns the single piece. -/
theorem splitChar_no_sep (sep : Char) (cs : List Char)
    (h : ∀ c ∈ cs, c ≠ sep) : splitChar sep cs = [cs] := by
  induction cs with
  | nil => rfl
  | cons c cs ih =>
    rw [splitChar]
    rw [if_neg (h c (List.mem_cons_self _ _))]
    rw [ih (fun x hx => h x (List.mem_cons_of_mem _ hx))]

/-- `str.split` around a single separator occurrence yields the two
surrounding pieces. -/
theorem splitChar_append (sep : Char) (xs ys : List Char)
    (hx : ∀ c ∈ xs, c ≠ sep) (hy : ∀ c ∈ ys, c ≠ sep) :
    splitChar sep (xs ++ sep :: ys) = [xs, ys] := by
  induction xs with
  | nil =>
    rw [List.nil_append, splitChar, if_pos rfl, splitChar_no_sep sep ys hy]
  | cons x xs ih =>
    rw [List.cons_append, splitChar,
      if_neg (hx x (List.mem_cons_self _ _)),
      ih (fun c hc => hx c (List.mem_cons_of_mem _ hc))]

/-- `bytes.fromhex` inverts `bytes.hex` on genuine byte strings. -/
theorem fromhex_hexChars (bs : List Nat) (hbs : ∀ b ∈ bs, b < 256) :
    fromhex (hexChars bs) = some bs := by
  induction bs with
  | nil => rfl
  | cons b bs ih =>
    have hb : b < 256 := hbs b (List.mem_cons_self _ _)
    have hdiv : b / 16 < 16 := Nat.div_lt_of_lt_mul hb
    have hmod : b % 16 < 16 := Nat.mod_lt _ (by norm_num)
    rw [hexChars, fromhex,
      if_pos (by rw [isHexChar_hexDigit _ hdiv, isHexChar_hexDigit _ hmod]; rfl),
      ih (fun x hx => hbs x (List.mem_cons_of_mem _ hx))]
    rw [hexVal_hexDigit _ hdiv, hexVal_hexDigit _ hmod, Option.map_some']
    rw [Nat.mul_comm, Nat.div_add_mod b 16]

/-- C9 (claim): password hashing round-trips — for every password and every
salt chosen by `hash_password`, `verify_password(p, hash_password(p))`
returns `True`; and for every string not of the form
`<hex salt>:<hex key>`, `verify_password` returns `False` rather than
raising.  Quantified over the external `pbkdf2_hmac` key-derivation
function; byte lists stand for Python `bytes`, so entries are below 256. -/
theorem C9_password_hash_roundtrip :
    (∀ (pbkdf2 : String → List Nat → Nat → List Nat) (salt : List Nat)
        (password : String),
      (∀ b ∈ salt, b < 256) →
      (∀ b ∈ pbkdf2 password salt 100000, b < 256) →
      verify_password pbkdf2 password (hash_password pbkdf2 salt password) = true) ∧
    (∀ (pbkdf2 : String → List Nat → Nat → List Nat) (password h : String),
      ¬ WellFormedHash h → verify_password pbkdf2 password h = false) := by
  constructor
  · intro pbkdf2 salt password hs hk
    unfold verify_password hash_password
    have hsplit : splitChar ':'
        (hexChars salt ++ ':' :: hexChars (pbkdf2 password salt 100000)) =
        [hexChars salt, hexChars (pbkdf2 password salt 100000)] :=
      splitChar_append ':' _ _ (hexChars_ne_colon salt hs)
        (hexChars_ne_colon _ hk)
    show (match splitChar ':'
        (hexChars salt ++ ':' :: hexChars (pbkdf2 password salt 100000)) with
      | [salt_hex, key_hex] =>
        match fromhex salt_hex, fromhex key_hex with
        | some salt, some stored_key => pbkdf2 password salt 100000 == stored_key
        | _, _ => false
      | _ => false) = true
    rw [hsplit]
    show (match fromhex (hexChars salt),
        fromhex (hexChars (pbkdf2 password salt 100000)) with
      | some salt, some stored_key => pbkdf2 password salt 100000 == stored_key
      | _, _ => false) = true
    rw [fromhex_hexChars salt hs, fromhex_hexChars _ hk]
    simp
  · intro pbkdf2 password h hnw
    unfold verify_password
    cases hsp : splitChar ':' h.data with
    | nil => rfl
    | cons s rest =>
      cases rest with
      | nil => rfl
      | cons k rest2 =>
        cases rest2 with
        | cons a rest3 => rfl
        | nil =>
          cases hfs : fromhex s with
          | none => simp [hfs]
          | some u =>
            cases hfk : fromhex k with
            | none => simp [hfs, hfk]
            | some v =>
              exact absurd ⟨s, k, hsp, by simp [hfs], by simp [hfk]⟩ hnw

/-- Witness for C9 at a concrete one-byte salt and key function. -/
theorem C9_witness :
    (∀ b ∈ [(171 : Nat)], b < 256) ∧
    (∀ b ∈ (fun (_ : String) (_ : List Nat) (_ : Nat) => [(7 : Nat)])
      "pw" [171] 100000, b < 256) ∧
    verify_password (fun _ _ _ => [7]) "pw"
      (hash_password (fun _ _ _ => [7]) [171] "pw") = true ∧
    ¬ WellFormedHash "x" ∧
    verify_password (fun _ _ _ => [7]) "pw" "x" = false := by
  have hnw : ¬ WellFormedHash "x" := by
    intro ⟨s, k, hsp, _, _⟩
    have h2 : (1 : Nat) = 2 := congrArg List.length hsp
    exact absurd h2 (by decide)
  refine ⟨by decide, by decide, ?_, hnw, ?_⟩
  · exact C9_password_hash_roundtrip.1 (fun _ _ _ => [7]) [171] "pw"
      (by decide) (by decide)
  · exact C9_password_hash_roundtrip.2 (fun _ _ _ => [7]) "pw" "x" hnw

/-- C10 (claim): `JWTAuthProvider.register` returns `success=False` with an
error message and leaves the user table unchanged whenever the username is
empty or shorter than 3 characters, the email is empty or lacks `'@'`, or
the password is empty or shorter than 8 characters; and when the lowercased
username or email already exists it likewise returns `success=False` with
the user table unchanged.  Quantified over the external key-derivation
function, salt and JWT encoder. -/
theorem C10_register_validation (pbkdf2 : String → List Nat → Nat → List Nat)
    (salt : List Nat) (mk_token : User → String) (db : DB)
    (user_id username email password : String) :
    ((username = "" ∨ username.length < 3) →
      (register pbkdf2 salt mk_token db user_id username email password).1.success
          = false ∧
      (register pbkdf2 salt mk_token db user_id username email password).1.error.isSome
          = true ∧
      (register pbkdf2 salt mk_token db user_id username email password).2 = db) ∧
    (¬(username = "" ∨ username.length < 3) →
      (email = "" ∨ py_contains email '@' = false) →
      (register pbkdf2 salt mk_token db user_id username email password).1.success
          = false ∧
      (register pbkdf2 salt mk_token db user_id username email password).1.error.isSome
          = true ∧
      (register pbkdf2 salt mk_token db user_id username email password).2 = db) ∧
    (¬(username = "" ∨ username.length < 3) →
      ¬(email = "" ∨ py_contains email '@' = false) →
      (password = "" ∨ password.length < 8) →
      (register pbkdf2 salt mk_token db user_id username email password).1.success
          = false ∧
      (register pbkdf2 salt mk_token db user_id username email password).1.error.isSome
          = true ∧
      (register pbkdf2 salt mk_token db user_id username email password).2 = db) ∧
    (¬(username = "" ∨ username.length < 3) →
      ¬(email = "" ∨ py_contains email '@' = false) →
      ¬(password = "" ∨ password.length < 8) →
      (∃ u ∈ db.users, u.username = py_lower username ∨ u.email = py_lower email) →
      (register pbkdf2 salt mk_token db user_id username email password).1.success
          = false ∧
      (register pbkdf2 salt mk_token db user_id username email password).1.error.isSome
          = true ∧
      (register pbkdf2 salt mk_token db user_id username email password).2.users
          = db.users) := by
  refine ⟨?_, ?_, ?_, ?_⟩
  · intro h
    have hc : (username == "" || decide (username.length < 3)) = true := by
      rcases h with h | h <;> simp [h]
    rw [register, if_pos hc]
    exact ⟨rfl, rfl, rfl⟩
  · intro h1 h2
    have hc1 : ¬ ((username == "" || decide (username.length < 3)) = true) := by
      push_neg at h1
      simp [h1.1, h1.2]
    have hc2 : (email == "" || !py_contains email '@') = true := by
      rcases h2 with h | h <;> simp [h]
    rw [register, if_neg hc1, if_pos hc2]
    exact ⟨rfl, rfl, rfl⟩
  · intro h1 h2 h3
    have hc1 : ¬ ((username == "" || decide (username.length < 3)) = true) := by
      push_neg at h1
      simp [h1.1, h1.2]
    have hc2 : ¬ ((email == "" || !py_contains email '@') = true) := by
      push_neg at h2
      simp [h2.1, h2.2]
    have hc3 : (password == "" || decide (password.length < 8)) = true := by
      rcases h3 with h | h <;> simp [h]
    rw [register, if_neg hc1, if_neg hc2, if_pos hc3]
    exact ⟨rfl, rfl, rfl⟩
  · intro h1 h2 h3 hex
    have hc1 : ¬ ((username == "" || decide (username.length < 3)) = true) := by
      push_neg at h1
      simp [h1.1, h1.2]
    have hc2 : ¬ ((email == "" || !py_contains email '@') = true) := by
      push_neg at h2
      simp [h2.1, h2.2]
    have hc3 : ¬ ((password == "" || decide (password.length < 8)) = true) := by
      push_neg at h3
      simp [h3.1, h3.2]
    have hany : (db.users.any
        (fun u => u.id == user_id || u.username == py_lower username ||
          u.email == py_lower email)) = true := by
      rw [List.any_eq_true]
      obtain ⟨u, hu, hcase⟩ := hex
      exact ⟨u, hu, by rcases hcase with h | h <;> simp [h]⟩
    have hcu : create_user pbkdf2 salt db user_id username email password =
        (none, db) := by
      rw [create_user, create_user_row, if_pos hany]
    rw [register, if_neg hc1, if_neg hc2, if_neg hc3, hcu]
    exact ⟨rfl, rfl, rfl⟩

/-- Witness for C10: a too-short username is rejected, and registering a
duplicate of `dbW`'s user `alice` (as `"Alice"`) fails with the user table
unchanged. -/
theorem C10_witness :
    (("ab" : String) = "" ∨ ("ab" : String).length < 3) ∧
    ((register (fun _ _ _ => [0]) [] (fun _ => "t") dbW
        "u9" "ab" "a@b.c" "password1").1.success = false ∧
      (register (fun _ _ _ => [0]) [] (fun _ => "t") dbW
        "u9" "ab" "a@b.c" "password1").1.error.isSome = true ∧
      (register (fun _ _ _ => [0]) [] (fun _ => "t") dbW
        "u9" "ab" "a@b.c" "password1").2 = dbW) ∧
    ¬(("Alice" : String) = "" ∨ ("Alice" : String).length < 3) ∧
    ¬(("x@y.z" : String) = "" ∨ py_contains "x@y.z" '@' = false) ∧
    ¬(("password1" : String) = "" ∨ ("password1" : String).length < 8) ∧
    (∃ u ∈ dbW.users, u.username = py_lower "Alice" ∨
      u.email = py_lower "x@y.z") ∧
    ((register (fun _ _ _ => [0]) [] (fun _ => "t") dbW
        "u9" "Alice" "x@y.z" "password1").1.success = false ∧
      (register (fun _ _ _ => [0]) [] (fun _ => "t") dbW
        "u9" "Alice" "x@y.z" "password1").1.error.isSome = true ∧
      (register (fun _ _ _ => [0]) [] (fun _ => "t") dbW
        "u9" "Alice" "x@y.z" "password1").2.users = dbW.users) := by
  refine ⟨by decide, ?_, by decide, by decide, by decide, by decide, ?_⟩
  · exact (C10_register_validation (fun _ _ _ => [0]) [] (fun _ => "t") dbW
      "u9" "ab" "a@b.c" "password1").1 (by decide)
  · exact (C10_register_validation (fun _ _ _ => [0]) [] (fun _ => "t") dbW
      "u9" "Alice" "x@y.z" "password1").2.2.2 (by decide) (by decide)
      (by decide) (by decide)
